import Mathlib

/-!
Shallow embedding of `dbus.go` (package dbus), the connection engine of a
D-Bus-style client.  The pure Lean models below follow the Go source:
the reply registry (the Go map `methodCallReplies`), the dispatcher
(`_MessageDispatch`), the frame buffer (`_PopMessage`, `_UpdateBuffer`,
one iteration of `_MessageReceiver`), the authentication handshake
(`_Auth`) and `Initialize`, the synchronous send path (`_SendSync`), and
the object model (`GetObject`, `Connection.Interface`, `CallMethod`).
External collaborators (the wire codec `_Unmarshal` / `_Marshal` and the
introspection parser `NewIntrospect`) are parameters, mirroring the
narrow contracts the source relies on.
-/

/-- Message type tag (`METHOD_CALL`, `METHOD_RETURN`, `ERROR`, `SIGNAL`). -/
inductive MsgType where
  | methodCall
  | methodReturn
  | error
  | signal
deriving DecidableEq

/-- One parameter value carried by a message. -/
inductive DBusValue where
  | str (s : String)
  | raw (bs : List Nat)
deriving DecidableEq

/-- The `Message` record: type tag, path, interface, destination, member,
signature, serial, reply serial and the ordered parameter values. -/
structure Message where
  type : MsgType
  path : String
  intf : String
  dest : String
  member : String
  sig : String
  serial : Nat
  replySerial : Nat
  params : List DBusValue
deriving DecidableEq

/-- The Go map `methodCallReplies map[uint32]func(*Message)`, modelled as
an association list from serial to an opaque callback identifier. -/
abbrev Registry := List (Nat × Nat)

/-- Map lookup `p.methodCallReplies[rs]`. -/
def Registry.lookup : Registry → Nat → Option Nat
  | [], _ => none
  | q :: t, s => if q.1 = s then some q.2 else Registry.lookup t s

/-- Map deletion `p.methodCallReplies[rs] = nil, false` (pre-Go1 delete
syntax): every pair keyed by `s` disappears. -/
def Registry.remove : Registry → Nat → Registry
  | [], _ => []
  | q :: t, s => if q.1 = s then Registry.remove t s else q :: Registry.remove t s

/-- Map assignment `p.methodCallReplies[seri] = f` (insert or overwrite). -/
def Registry.insert (r : Registry) (s cb : Nat) : Registry :=
  (s, cb) :: Registry.remove r s

/-- Result of one `_MessageDispatch` call: the registry afterwards and the
callback invocations it performed (callback id paired with the message
handed to it), in order. -/
structure DispatchResult where
  registry : Registry
  fired : List (Nat × Message)
deriving DecidableEq

/-- Models `_MessageDispatch`: on METHOD_RETURN, look up `msg.replySerial`;
if present invoke the callback once and delete the entry; if absent fall
through (the frame is dropped).  The ERROR arm only prints diagnostics;
METHOD_CALL and SIGNAL are not handled.  Neither touches the registry or
fires a callback. -/
def _MessageDispatch (reg : Registry) (msg : Message) : DispatchResult :=
  if msg.type = MsgType.methodReturn then
    match Registry.lookup reg msg.replySerial with
    | some cb => { registry := Registry.remove reg msg.replySerial, fired := [(cb, msg)] }
    | none => { registry := reg, fired := [] }
  else
    { registry := reg, fired := [] }

/-- Outcome of the external codec call `_Unmarshal(buf)`: a message plus
the count of bytes consumed, or an error — the codec distinguishes
incomplete data from a malformed frame, but both come back to the caller
as a non-nil `os.Error`. -/
inductive UnmarshalResult where
  | ok (msg : Message) (n : Nat)
  | incomplete
  | malformed
deriving DecidableEq

/-- The codec collaborator `_Unmarshal`. -/
abbrev UnmarshalFn := List Nat → UnmarshalResult

/-- Models `_PopMessage`: run `_Unmarshal` on the buffered bytes; on any
error return it with the buffer untouched; on success remove exactly the
first `n` bytes (`p.buffer.Read(make([]byte, n))`) and return the
message. -/
def _PopMessage (unm : UnmarshalFn) (buf : List Nat) : Option Message × List Nat :=
  match unm buf with
  | UnmarshalResult.ok msg n => (some msg, buf.drop n)
  | _ => (none, buf)

/-- Models `_UpdateBuffer`: one blocking `conn.Read`, appending whatever
bytes arrive. -/
def _UpdateBuffer (buf chunk : List Nat) : List Nat := buf ++ chunk

/-- One iteration of the `_MessageReceiver` loop: if `_PopMessage`
succeeds the message goes to `msgChan` and the loop continues on the
shrunk buffer; on ANY error (`e != nil` — the kind is never inspected)
the loop calls `_UpdateBuffer` and retries.  `chunk` is what the next
socket read returns. -/
def _MessageReceiverStep (unm : UnmarshalFn) (buf chunk : List Nat) :
    Option Message × List Nat :=
  match _PopMessage unm buf with
  | (some msg, rest) => (some msg, rest)
  | (none, _) => (none, _UpdateBuffer buf chunk)

/-- Character class `[0-9a-fA-F]` of the handshake regexp. -/
def isHexDigit (c : Char) : Bool :=
  (48 ≤ c.toNat && c.toNat ≤ 57) ||
  (97 ≤ c.toNat && c.toNat ≤ 102) ||
  (65 ≤ c.toNat && c.toNat ≤ 70)

/-- Longest hex-digit run at the head of the list: the capture group
`([0-9a-fA-F]+)` is greedy. -/
def hexRun : List Char → List Char
  | [] => []
  | c :: cs => if isHexDigit c then c :: hexRun cs else []

/-- The regexp `^OK ([0-9a-fA-F]+)` of `_Auth`, returning the first
capture group (`retstr[m[2]:m[3]]`) when the subject matches. -/
def okMatch : List Char → Option (List Char)
  | 'O' :: 'K' :: ' ' :: rest =>
    if (hexRun rest).isEmpty then none else some (hexRun rest)
  | _ => none

/-- The leading NUL byte `_Auth` writes. -/
def nulByte : List Char := [Char.ofNat 0]

/-- The line `AUTH EXTERNAL <hex uid>\r\n`; `uid` stands for the
hex-encoded uid string computed from `os.Getuid()`. -/
def authLine (uid : List Char) : List Char :=
  ("AUTH EXTERNAL ").toList ++ uid ++ ("\r\n").toList

/-- The line `BEGIN\r\n`. -/
def beginLine : List Char := ("BEGIN\r\n").toList

/-- Result of `_Auth`: the guid stored on the connection, the byte
strings written to the socket in order, and the returned `os.Error`. -/
structure AuthResult where
  guid : Option (List Char)
  writes : List (List Char)
  err : Option String
deriving DecidableEq

/-- Models `_Auth`: write the NUL byte and the AUTH line, perform ONE
`conn.Read` whose result is `response`, match `^OK ([0-9a-fA-F]+)`
against it; on a match store the captured group as the guid and write
`BEGIN\r\n`, returning nil; otherwise return the auth error with BEGIN
unsent.  (The 1000-byte read buffer is NUL-padded; trailing NULs can
neither start a match nor extend the hex group.) -/
def _Auth (uid response : List Char) : AuthResult :=
  match okMatch response with
  | some g =>
    { guid := some g, writes := [nulByte, authLine uid, beginLine], err := none }
  | none =>
    { guid := none, writes := [nulByte, authLine uid], err := some ("Auth Failed") }

/-- The single fixed-size read `b := make([]byte, 1000); p.conn.Read(b)`:
only the first chunk the transport has pending is returned, capped at
1000 bytes; later chunks are never read by `_Auth`. -/
def authReadResponse (chunks : List (List Char)) : List Char :=
  (chunks.headD []).take 1000

/-- Models `_Auth` as executed against a transport that delivers the
response in successive `chunks`. -/
def _AuthOnStream (uid : List Char) (chunks : List (List Char)) : AuthResult :=
  _Auth uid (authReadResponse chunks)

/-- Observable effects of `Initialize`: the freshly made registry and
buffer, the outcome of the `_Auth` call (whose returned error the source
DISCARDS — the statement is `p._Auth()` with no assignment), and the
`os.Error` value `Initialize` itself returns (`return nil`,
unconditionally). -/
structure InitEffects where
  registry : Registry
  buffer : List Nat
  auth : AuthResult
  ret : Option String
deriving DecidableEq

/-- Models `Initialize` given the handshake response the peer sends. -/
def Initialize (uid response : List Char) : InitEffects :=
  { registry := [], buffer := [], auth := _Auth uid response, ret := none }

/-- Connection state touched by the send path: the serial counter (the
per-connection monotone serial source) and the reply registry. -/
structure ConnSt where
  nextSerial : Nat
  registry : Registry
deriving DecidableEq

/-- Modelled from the spec: serial assignment happens in `NewMessage`
(message.go), which is not part of the given source — `_SendSync` only
reads `msg.serial`.  The spec describes the serial as "per-connection
monotonically assigned" and "fresh, unique among currently outstanding
calls", so it is modelled as an incrementing counter. -/
def assignSerial (st : ConnSt) : Nat × ConnSt :=
  (st.nextSerial, { st with nextSerial := st.nextSerial + 1 })

/-- The codec collaborator `_Marshal`; `none` models a marshalling
error. -/
abbrev MarshalFn := Message → Option (List Nat)

/-- Models `_SendSync`: register the callback under `uint32(msg.serial)`,
marshal (`buff, _ := msg._Marshal()` — the error is discarded), write
(`p.conn.Write(buff)` — both results are discarded), block on the
rendezvous channel until the dispatcher fires the callback, then
`return nil`.  `marshal` and `writeErr` are the collaborator outcomes;
the returned error is `none` whatever they are. -/
def _SendSync (marshal : MarshalFn) (writeErr : Option String) (st : ConnSt)
    (msg : Message) (cb : Nat) : Option String × ConnSt :=
  (none, { st with registry := Registry.insert st.registry msg.serial cb })

/-- A message with all fields at their zero values, as `NewMessage`
yields before the caller fills it in. -/
def baseMessage : Message :=
  { type := MsgType.methodCall, path := "", intf := "", dest := "",
    member := "", sig := "", serial := 0, replySerial := 0, params := [] }

/-- One synchronous call as the spec describes it: `NewMessage` assigns a
fresh serial (spec-modelled, `assignSerial`) and `_SendSync` registers
the callback under it.  Returns the serial used and the state after. -/
def sendWithFreshSerial (st : ConnSt) (cb : Nat) : Nat × ConnSt :=
  ((assignSerial st).1,
    (_SendSync (fun _ => some []) none (assignSerial st).2
      { baseMessage with serial := (assignSerial st).1 } cb).2)

/-- Registry invariant maintained by the monotone serial source: every
registered serial is below the counter. -/
def SerialsBelow (st : ConnSt) : Prop :=
  ∀ q ∈ st.registry, q.1 < st.nextSerial

/-- Introspection metadata for one method (external collaborator). -/
structure MethodData where
  name : String
  inSig : String
deriving DecidableEq

/-- Accessor `MethodData.GetInSignature()`. -/
def MethodData.GetInSignature (m : MethodData) : String := m.inSig

/-- Introspection metadata for one interface (external collaborator). -/
structure InterfaceData where
  name : String
  methods : List MethodData
deriving DecidableEq

/-- Lookup `InterfaceData.GetMethodData(name)`, nil when absent. -/
def InterfaceData.GetMethodData (d : InterfaceData) (nm : String) : Option MethodData :=
  d.methods.find? (fun md => md.name == nm)

/-- Parsed introspection result (external collaborator). -/
structure IntrospectData where
  interfaces : List InterfaceData
deriving DecidableEq

/-- Lookup `Introspect.GetInterfaceData(name)`, nil when absent. -/
def IntrospectData.GetInterfaceData (i : IntrospectData) (nm : String) : Option InterfaceData :=
  i.interfaces.find? (fun d => d.name == nm)

/-- The external parser `NewIntrospect`; `none` models a parse error. -/
abbrev ParseFn := String → Option IntrospectData

/-- Models `_GetIntrospect`: issue the Introspect call and inspect the
reply; `replyParam` is `reply.Params.At(0)`.  The local `intro` stays nil
unless the first reply parameter is a string AND `NewIntrospect`
succeeds on it. -/
def _GetIntrospect (parse : ParseFn) (replyParam : Option DBusValue) : Option IntrospectData :=
  match replyParam with
  | some (DBusValue.str s) => parse s
  | _ => none

/-- The `Object` record: destination, path and the (possibly nil) cached
introspection metadata. -/
structure Object where
  dest : String
  path : String
  intro : Option IntrospectData
deriving DecidableEq

/-- Models `GetObject`: always returns an Object — the signature has no
error channel — whose metadata is whatever `_GetIntrospect` produced. -/
def GetObject (parse : ParseFn) (replyParam : Option DBusValue) (dest path : String) : Object :=
  { dest := dest, path := path, intro := _GetIntrospect parse replyParam }

/-- The `Interface` record: owning object, interface name and its
metadata view. -/
structure Interface where
  obj : Object
  name : String
  intro : InterfaceData
deriving DecidableEq

/-- Models `Connection.Interface(obj, name)`: nil when the Object's
cached metadata is nil or lacks the named interface. -/
def Connection.Interface (obj : Object) (nm : String) : Option Interface :=
  match obj.intro with
  | none => none
  | some ind =>
    match IntrospectData.GetInterfaceData ind nm with
    | none => none
    | some d => some { obj := obj, name := nm, intro := d }

/-- Models `CallMethod`: resolve the method in the interface metadata and
return the `Invalid Method` error when it is absent; otherwise build the
call message (nil arguments are skipped, the signature comes from the
metadata), drive it through `_SendSync`, and `return nil` — the value
`_SendSync` returns is itself discarded.  `serial` is the serial
`NewMessage` assigned to the fresh message. -/
def CallMethod (marshal : MarshalFn) (writeErr : Option String) (st : ConnSt) (serial : Nat)
    (intf : Interface) (nm : String) (args : List (Option DBusValue)) (cb : Nat) :
    Option String × ConnSt :=
  match InterfaceData.GetMethodData intf.intro nm with
  | none => (some ("Invalid Method"), st)
  | some md =>
    (none,
      (_SendSync marshal writeErr st
        { type := MsgType.methodCall, path := intf.obj.path, intf := intf.name,
          dest := intf.obj.dest, member := nm, sig := MethodData.GetInSignature md,
          serial := serial, replySerial := 0, params := args.filterMap id } cb).2)

/-- `CallMethod` reached the way a client must reach it: through
`Connection.Interface` on the Object; `none` means no interface view
exists, so no call is ever issued. -/
def callThroughObject (marshal : MarshalFn) (writeErr : Option String) (st : ConnSt)
    (serial : Nat) (obj : Object) (intfName mName : String)
    (args : List (Option DBusValue)) (cb : Nat) : Option (Option String × ConnSt) :=
  (Connection.Interface obj intfName).map
    (fun i => CallMethod marshal writeErr st serial i mName args cb)

/-- Concrete fixtures used by witnesses. -/
def uid0 : List Char := ("31303030").toList

def methodPing : MethodData := { name := "Ping", inSig := "s" }

def echoData : InterfaceData := { name := "com.example.Echo", methods := [methodPing] }

def introEcho : IntrospectData := { interfaces := [echoData] }

def objEcho : Object := { dest := "d", path := "/p", intro := some introEcho }

def intfEcho : Interface := { obj := objEcho, name := "com.example.Echo", intro := echoData }

def parseFail : ParseFn := fun _ => none

def objEmpty : Object := GetObject parseFail (some (DBusValue.str "x")) "d" "/p"

def st0 : ConnSt := { nextSerial := 0, registry := [] }

def regW : Registry := [(5, 1)]

def msgReturn5 : Message :=
  { type := MsgType.methodReturn, path := "", intf := "", dest := "", member := "",
    sig := "", serial := 9, replySerial := 5, params := [] }

def msgFrame : Message :=
  { type := MsgType.methodReturn, path := "", intf := "", dest := "", member := "",
    sig := "", serial := 0, replySerial := 3, params := [] }

def unmTwo : UnmarshalFn := fun b =>
  if 2 ≤ b.length then UnmarshalResult.ok msgFrame 2 else UnmarshalResult.incomplete

def unmAlwaysMalformed : UnmarshalFn := fun _ => UnmarshalResult.malformed

def unmAlwaysIncomplete : UnmarshalFn := fun _ => UnmarshalResult.incomplete

/-- Helper: removing a serial empties every binding for it. -/
theorem Registry.lookup_remove_self (r : Registry) (s : Nat) :
    Registry.lookup (Registry.remove r s) s = none := by
  induction r with
  | nil => rfl
  | cons q t ih =>
    by_cases h : q.1 = s
    · simpa [Registry.remove, h] using ih
    · simpa [Registry.remove, Registry.lookup, h] using ih

/-- Helper: membership survives removal. -/
theorem Registry.mem_remove {q : Nat × Nat} (r : Registry) (s : Nat)
    (h : q ∈ Registry.remove r s) : q ∈ r := by
  induction r with
  | nil => cases h
  | cons p t ih =>
    by_cases hp : p.1 = s
    · exact List.mem_cons_of_mem p (ih (by simpa [Registry.remove, hp] using h))
    · rcases List.mem_cons.mp (by simpa [Registry.remove, hp] using h) with h1 | h2
      · exact h1 ▸ List.mem_cons_self p t
      · exact List.mem_cons_of_mem p (ih h2)

/-- Helper: a serial bound by no pair is absent. -/
theorem Registry.lookup_eq_none (r : Registry) (s : Nat)
    (h : ∀ q ∈ r, q.1 ≠ s) : Registry.lookup r s = none := by
  induction r with
  | nil => rfl
  | cons q t ih =>
    have hq := h q (List.mem_cons_self q t)
    simp only [Registry.lookup, hq, if_false]
    exact ih (fun p hp => h p (List.mem_cons_of_mem q hp))

/-- Claim C1: dispatching a METHOD_RETURN whose replySerial is registered
fires that serial's callback exactly once and removes the entry, so a
second frame with the same replySerial finds no entry and is dropped
with the registry unchanged; a frame whose replySerial is unregistered
is dropped silently with no registry change. -/
theorem dispatch_reply_exactly_once (reg : Registry) (msg : Message)
    (h : msg.type = MsgType.methodReturn) :
    (∀ cb, Registry.lookup reg msg.replySerial = some cb →
      (_MessageDispatch reg msg).fired = [(cb, msg)] ∧
      Registry.lookup (_MessageDispatch reg msg).registry msg.replySerial = none ∧
      (∀ msg2 : Message, msg2.type = MsgType.methodReturn →
        msg2.replySerial = msg.replySerial →
        (_MessageDispatch (_MessageDispatch reg msg).registry msg2).registry =
          (_MessageDispatch reg msg).registry ∧
        (_MessageDispatch (_MessageDispatch reg msg).registry msg2).fired = [])) ∧
    (Registry.lookup reg msg.replySerial = none →
      (_MessageDispatch reg msg).registry = reg ∧
      (_MessageDispatch reg msg).fired = []) := by
  constructor
  · intro cb hcb
    have e1 : _MessageDispatch reg msg =
        { registry := Registry.remove reg msg.replySerial, fired := [(cb, msg)] } := by
      simp [_MessageDispatch, h, hcb]
    refine ⟨by rw [e1], ?_, ?_⟩
    · rw [e1]
      exact Registry.lookup_remove_self reg msg.replySerial
    · intro msg2 h2 hrs
      rw [e1]
      have hn : Registry.lookup (Registry.remove reg msg.replySerial) msg2.replySerial = none := by
        rw [hrs]
        exact Registry.lookup_remove_self reg msg.replySerial
      constructor <;> simp [_MessageDispatch, h2, hn]
  · intro hn
    constructor <;> simp [_MessageDispatch, h, hn]

/-- Witness for C1 at a concrete registry and frame. -/
theorem dispatch_reply_exactly_once_witness :
    (_MessageDispatch regW msgReturn5).fired = [(1, msgReturn5)] ∧
    Registry.lookup (_MessageDispatch regW msgReturn5).registry 5 = none ∧
    (_MessageDispatch (_MessageDispatch regW msgReturn5).registry msgReturn5).fired = [] := by
  have h := dispatch_reply_exactly_once regW msgReturn5 rfl
  have h1 := h.1 1 rfl
  exact ⟨h1.1, h1.2.1, (h1.2.2 msgReturn5 rfl rfl).2⟩

/-- Claim C2: when the codec reports a frame with `n` bytes consumed,
`_PopMessage` returns the frame and removes exactly the first `n` bytes
(never more, never less, under the codec contract `n` ≤ buffered
length); when the codec reports incomplete data, no frame is returned
and the buffer is byte-for-byte unchanged. -/
theorem popMessage_consumes_exactly (unm : UnmarshalFn) (buf : List Nat) :
    (∀ msg n, unm buf = UnmarshalResult.ok msg n →
      _PopMessage unm buf = (some msg, buf.drop n) ∧
      (n ≤ buf.length →
        buf.take n ++ (_PopMessage unm buf).2 = buf ∧
        (buf.take n).length = n ∧
        (_PopMessage unm buf).2.length = buf.length - n)) ∧
    (unm buf = UnmarshalResult.incomplete → _PopMessage unm buf = (none, buf)) := by
  constructor
  · intro msg n h
    have e1 : _PopMessage unm buf = (some msg, buf.drop n) := by
      simp [_PopMessage, h]
    refine ⟨e1, fun hn => ⟨?_, ?_, ?_⟩⟩
    · rw [e1]
      exact List.take_append_drop n buf
    · simpa using hn
    · simp [e1]
  · intro h
    simp [_PopMessage, h]

/-- Witness for C2 at a concrete codec and buffer. -/
theorem popMessage_consumes_exactly_witness :
    _PopMessage unmTwo [10, 11, 12] = (some msgFrame, [12]) ∧
    List.take 2 [10, 11, 12] ++ (_PopMessage unmTwo [10, 11, 12]).2 = [10, 11, 12] ∧
    _PopMessage unmTwo [10] = (none, [10]) := by
  have h1 := (popMessage_consumes_exactly unmTwo [10, 11, 12]).1 msgFrame 2 rfl
  have h2 := (popMessage_consumes_exactly unmTwo [10]).2 rfl
  exact ⟨h1.1, (h1.2 (by decide)).1, h2⟩

/-- Claim C3 (code-bug evidence): `Initialize` calls `p._Auth()` without
binding its result and ends in an unconditional `return nil`, so even
when the handshake is rejected (`_Auth` returns the auth error) the
caller of `Initialize` sees success. -/
theorem initialize_swallows_auth_failure :
    (Initialize uid0 (("REJECTED\r\n").toList)).auth.err = some ("Auth Failed") ∧
    (Initialize uid0 (("REJECTED\r\n").toList)).ret = none ∧
    (∀ uid response, (Initialize uid response).ret = none) := by
  exact ⟨rfl, rfl, fun _ _ => rfl⟩

/-- Helper: the BEGIN line differs from the NUL write. -/
theorem beginLine_ne_nul : beginLine ≠ nulByte := by decide

/-- Helper: the BEGIN line differs from every AUTH line. -/
theorem beginLine_ne_authLine (uid : List Char) : beginLine ≠ authLine uid := by
  have hb : beginLine = 'B' :: ("EGIN\r\n").toList := rfl
  have ha : authLine uid = 'A' :: (("UTH EXTERNAL ").toList ++ uid ++ ("\r\n").toList) := rfl
  rw [hb, ha]
  intro h
  injection h with h1 _
  exact absurd h1 (by decide)

/-- Claim C4: a handshake response not matching `OK <hex-guid>` yields
the auth error and `BEGIN\r\n` is never among the socket writes; a
matching response stores the captured guid, then writes BEGIN, and
returns no error. -/
theorem auth_match_or_reject (uid response : List Char) :
    (okMatch response = none →
      (_Auth uid response).err = some ("Auth Failed") ∧
      beginLine ∉ (_Auth uid response).writes) ∧
    (∀ g, okMatch response = some g →
      (_Auth uid response).guid = some g ∧
      beginLine ∈ (_Auth uid response).writes ∧
      (_Auth uid response).err = none) := by
  constructor
  · intro hm
    have e1 : (_Auth uid response).writes = [nulByte, authLine uid] := by
      simp [_Auth, hm]
    refine ⟨by simp [_Auth, hm], ?_⟩
    rw [e1]
    intro hmem
    rcases List.mem_cons.mp hmem with h1 | hmem2
    · exact beginLine_ne_nul h1
    · rcases List.mem_cons.mp hmem2 with h2 | h3
      · exact beginLine_ne_authLine uid h2
      · exact absurd h3 (List.not_mem_nil beginLine)
  · intro g hm
    simp [_Auth, hm]

/-- Witness for C4 at a rejecting and at an accepting response. -/
theorem auth_match_or_reject_witness :
    (_Auth uid0 (("REJECTED\r\n").toList)).err = some ("Auth Failed") ∧
    beginLine ∉ (_Auth uid0 (("REJECTED\r\n").toList)).writes ∧
    (_Auth uid0 (("OK deadbeef\r\n").toList)).guid = some (("deadbeef").toList) ∧
    beginLine ∈ (_Auth uid0 (("OK deadbeef\r\n").toList)).writes := by
  have hr := (auth_match_or_reject uid0 (("REJECTED\r\n").toList)).1 (by decide)
  have ho := (auth_match_or_reject uid0 (("OK deadbeef\r\n").toList)).2
    (("deadbeef").toList) (by decide)
  exact ⟨hr.1, hr.2, ho.1, ho.2.1⟩

/-- Claim C5 (code-bug evidence): `_Auth` performs a single fixed-size
read, so when the peer's `OK deadbeef\r\n` arrives split across two
reads only the first chunk is seen: the stored guid is the truncated
`dead`, not the `deadbeef` stored when the line arrives whole — the read
does not accumulate until the line terminator. -/
theorem auth_single_read_truncates :
    (_AuthOnStream uid0 [("OK dead").toList, ("beef\r\n").toList]).guid =
      some (("dead").toList) ∧
    (_AuthOnStream uid0 [("OK deadbeef\r\n").toList]).guid =
      some (("deadbeef").toList) ∧
    (("dead").toList : List Char) ≠ ("deadbeef").toList := by
  exact ⟨rfl, rfl, by decide⟩

/-- Claim C6 (code-bug evidence): on a buffer the codec reports as
malformed, one receiver iteration delivers nothing, surfaces no error,
reads more bytes and retries — byte-for-byte the same behaviour as on
incomplete data; no ProtocolError is ever reported. -/
theorem receiver_swallows_malformed :
    _MessageReceiverStep unmAlwaysMalformed [7] [8] = (none, [7, 8]) ∧
    _MessageReceiverStep unmAlwaysMalformed [7] [8] =
      _MessageReceiverStep unmAlwaysIncomplete [7] [8] := by
  exact ⟨rfl, rfl⟩

/-- Helper: `sendWithFreshSerial` computed. -/
theorem sendWithFreshSerial_eq (st : ConnSt) (cb : Nat) :
    sendWithFreshSerial st cb =
      (st.nextSerial,
        { nextSerial := st.nextSerial + 1,
          registry := Registry.insert st.registry st.nextSerial cb }) := rfl

/-- Helper: the registry invariant survives a send. -/
theorem serialsBelow_send (st : ConnSt) (cb : Nat) (h : SerialsBelow st) :
    SerialsBelow (sendWithFreshSerial st cb).2 := by
  rw [sendWithFreshSerial_eq]
  intro q hq
  rcases List.mem_cons.mp (by simpa [Registry.insert] using hq) with h1 | h2
  · rw [h1]
    exact Nat.lt_succ_self _
  · exact Nat.lt_succ_of_lt (h q (Registry.mem_remove st.registry st.nextSerial h2))

/-- Helper: under the invariant the counter value is unregistered. -/
theorem lookup_fresh (st : ConnSt) (h : SerialsBelow st) :
    Registry.lookup st.registry st.nextSerial = none :=
  Registry.lookup_eq_none st.registry st.nextSerial
    (fun q hq => Nat.ne_of_lt (h q hq))

/-- Claim C7: under the registry invariant (every outstanding serial lies
below the counter), a synchronous send is assigned a serial absent from
the outstanding registry; a second back-to-back send gets a distinct
serial, itself fresh in the registry left by the first; the invariant is
preserved across both sends. -/
theorem sendSync_serials_fresh (st : ConnSt) (cb1 cb2 : Nat) (h : SerialsBelow st) :
    Registry.lookup st.registry (sendWithFreshSerial st cb1).1 = none ∧
    (sendWithFreshSerial st cb1).1 ≠
      (sendWithFreshSerial (sendWithFreshSerial st cb1).2 cb2).1 ∧
    Registry.lookup (sendWithFreshSerial st cb1).2.registry
      (sendWithFreshSerial (sendWithFreshSerial st cb1).2 cb2).1 = none ∧
    SerialsBelow (sendWithFreshSerial (sendWithFreshSerial st cb1).2 cb2).2 := by
  have h1 := serialsBelow_send st cb1 h
  refine ⟨?_, ?_, ?_, serialsBelow_send _ cb2 h1⟩
  · exact lookup_fresh st h
  · exact Nat.ne_of_lt (Nat.lt_succ_self st.nextSerial)
  · exact lookup_fresh _ h1

/-- Witness for C7 from the empty connection state. -/
theorem sendSync_serials_fresh_witness :
    Registry.lookup st0.registry (sendWithFreshSerial st0 1).1 = none ∧
    (sendWithFreshSerial st0 1).1 ≠
      (sendWithFreshSerial (sendWithFreshSerial st0 1).2 2).1 := by
  have h := sendSync_serials_fresh st0 1 2 (fun q hq => absurd hq (List.not_mem_nil q))
  exact ⟨h.1, h.2.1⟩

/-- Claim C8 counterexample: for the Object built from a failed
introspection, the interface lookup yields nil, so a call through that
Object produces no outcome at all — in particular never the `Invalid
Method` error the claim promises. -/
theorem getObject_empty_counterexample :
    Connection.Interface objEmpty "com.example.Echo" = none ∧
    callThroughObject (fun _ => some []) none st0 1 objEmpty
      "com.example.Echo" "Ping" [] 0 = none ∧
    ¬ ∃ st2, callThroughObject (fun _ => some []) none st0 1 objEmpty
      "com.example.Echo" "Ping" [] 0 = some (some ("Invalid Method"), st2) := by
  refine ⟨rfl, rfl, ?_⟩
  rintro ⟨st2, hst⟩
  have h0 : callThroughObject (fun _ => some []) none st0 1 objEmpty
      "com.example.Echo" "Ping" [] 0 = none := rfl
  rw [h0] at hst
  cases hst

/-- Claim C8 (amended): when the introspection parse fails, `GetObject`
returns — through a signature with no error channel — an Object with nil
metadata; `Connection.Interface` on any nil-metadata Object returns nil
for every name, so no interface view exists to call through; and
`CallMethod` returns the `Invalid Method` error exactly when the given
interface's metadata lacks the requested method. -/
theorem getObject_empty_behaviour :
    (∀ parse : ParseFn, ∀ s dest path, parse s = none →
      (GetObject parse (some (DBusValue.str s)) dest path).intro = none) ∧
    (∀ obj : Object, obj.intro = none → ∀ nm, Connection.Interface obj nm = none) ∧
    (∀ marshal writeErr st serial intf nm args cb,
      InterfaceData.GetMethodData (Interface.intro intf) nm = none →
      (CallMethod marshal writeErr st serial intf nm args cb).1 =
        some ("Invalid Method")) := by
  refine ⟨?_, ?_, ?_⟩
  · intro parse s dest path hp
    simp [GetObject, _GetIntrospect, hp]
  · intro obj hO nm
    simp [Connection.Interface, hO]
  · intro marshal writeErr st serial intf nm args cb hm
    simp [CallMethod, hm]

/-- Witness for the amended C8 at concrete data. -/
theorem getObject_empty_behaviour_witness :
    objEmpty.intro = none ∧
    Connection.Interface objEmpty "org.freedesktop.DBus.Peer" = none ∧
    (CallMethod (fun _ => some []) none st0 1 intfEcho "Pong" [] 0).1 =
      some ("Invalid Method") := by
  have h := getObject_empty_behaviour
  refine ⟨h.1 parseFail "x" "d" "/p" rfl, ?_, ?_⟩
  · exact h.2.1 objEmpty rfl "org.freedesktop.DBus.Peer"
  · exact h.2.2 (fun _ => some []) none st0 1 intfEcho "Pong" [] 0 rfl

/-- Claim C10: once the method lookup succeeds, `CallMethod` returns nil
no matter what the codec `Marshal` or the transport write produce, and
`_SendSync` likewise returns nil for every message and every collaborator
outcome — send-path failures are discarded, never reported. -/
theorem callMethod_discards_send_failures (marshal : MarshalFn) (writeErr : Option String)
    (st : ConnSt) (serial : Nat) (intf : Interface) (nm : String)
    (args : List (Option DBusValue)) (cb : Nat) (md : MethodData)
    (h : InterfaceData.GetMethodData intf.intro nm = some md) :
    (CallMethod marshal writeErr st serial intf nm args cb).1 = none ∧
    (∀ msg, (_SendSync marshal writeErr st msg cb).1 = none) := by
  constructor
  · simp [CallMethod, h]
  · intro msg
    rfl

/-- Witness for C10 with a failing marshal and a failing write. -/
theorem callMethod_discards_send_failures_witness :
    (CallMethod (fun _ => none) (some ("write failed")) st0 1 intfEcho "Ping" [] 0).1 =
      none := by
  exact (callMethod_discards_send_failures (fun _ => none) (some ("write failed"))
    st0 1 intfEcho "Ping" [] 0 methodPing rfl).1
